import Mathlib

/-!
Shallow embedding of `src/server.py`: a minimal HTTP/1.1 server with static
routes, an echo endpoint, a user-agent reflector, a file store rooted at a
base directory, and per-request gzip negotiation.

Modelling conventions:
* Python `str` values are `List Char` (`PStr`); Python `bytes` are `List Nat`
  (`Bytes`), one `Nat` per byte.
* `gzip.compress` is an external library call; it is passed in as an abstract
  function `compress : Bytes → Bytes`, so theorems hold for every compressor.
* The filesystem is an association list from resolved absolute paths to file
  contents; `open`/`write` on a path acts on the key `abspathA path`.
* Stateful code is explicit state passing: `write_file` returns the new
  filesystem next to the boolean the Python function returns.
-/

abbrev PStr := List Char

abbrev Bytes := List Nat

/-- ASCII whitespace recognized by Python `str.strip()` / `str.split()`
(Unicode-only whitespace characters are not modelled; no call site of the
server produces them). -/
def isPyWs (c : Char) : Bool :=
  c == ' ' || c == '\t' || c == '\n' || c == '\r' || c == '\x0b' || c == '\x0c'

/-- Python `s.strip()`: remove leading and trailing whitespace. -/
def pyStrip (s : PStr) : PStr :=
  ((s.dropWhile isPyWs).reverse.dropWhile isPyWs).reverse

/-- Python `s.lower()` (ASCII case mapping; the server only compares ASCII
header tokens such as `gzip`). -/
def pyLower (s : PStr) : PStr :=
  s.map Char.toLower

/-- Helper for the splitters: prepend a character to the first chunk. -/
def consHd (c : Char) : List PStr → List PStr
  | [] => [[c]]
  | h :: t => (c :: h) :: t

/-- Python `s.split(sep)` for a one-character separator: split at every
occurrence, keeping empty chunks (so `''.split(',') = ['']`). -/
def pySplitChar (sep : Char) (s : PStr) : List PStr :=
  s.foldr (fun c acc => if c == sep then [] :: acc else consHd c acc) [[]]

/-- Python `s.split()` with no argument: maximal runs of non-whitespace,
empty chunks discarded. -/
def pyWhitespaceSplit (s : PStr) : List PStr :=
  (s.foldr (fun c acc => if isPyWs c then [] :: acc else consHd c acc) []).filter
    (fun t => !t.isEmpty)

/-- Python `dict.get` for a dict built by repeated assignment: the LAST
binding of a key wins, as later `d[k] = v` statements overwrite earlier
ones. -/
def dictGet (d : List (PStr × PStr)) (k : PStr) : Option PStr :=
  match d with
  | [] => none
  | (k', v) :: rest =>
    match dictGet rest k with
    | some v' => some v'
    | none => if k' = k then some v else none

/-- Split a string at the FIRST occurrence of `sep` (Python
`s.split(sep, 1)` when it succeeds); `none` when `sep` does not occur. -/
def splitFirstSub (sep : PStr) (s : PStr) : Option (PStr × PStr) :=
  if sep.isPrefixOf s then some ([], s.drop sep.length)
  else
    match s with
    | [] => none
    | c :: rest => (splitFirstSub sep rest).map (fun p => (c :: p.1, p.2))

theorem splitFirstSub_some_length (sep : PStr) (hsep : sep ≠ []) :
    ∀ (s p q : PStr), splitFirstSub sep s = some (p, q) → q.length < s.length := by
  intro s
  induction s with
  | nil =>
    intro p q h
    obtain ⟨a, as, rfl⟩ : ∃ a as, sep = a :: as := by
      cases sep with
      | nil => exact absurd rfl hsep
      | cons a as => exact ⟨a, as, rfl⟩
    simp [splitFirstSub, List.isPrefixOf] at h
  | cons c rest ih =>
    intro p q h
    rw [splitFirstSub] at h
    split at h
    · rw [Option.some.injEq, Prod.mk.injEq] at h
      obtain ⟨hp, hq⟩ := h
      subst hq
      have hlen : 1 ≤ sep.length := by
        cases sep with
        | nil => exact absurd rfl hsep
        | cons a as => simp
      rw [List.length_drop]
      simp only [List.length_cons]
      omega
    · cases hrec : splitFirstSub sep rest with
      | none => rw [hrec] at h; simp at h
      | some pr =>
        rw [hrec] at h
        simp only [Option.map_some'] at h
        rw [Option.some.injEq, Prod.mk.injEq] at h
        obtain ⟨hp, hq⟩ := h
        subst hq
        have := ih pr.1 pr.2 (by rw [hrec])
        simp only [List.length_cons]
        omega

/-- Fuel-based repeated splitter: by `splitFirstSub_some_length`, every found
separator strictly shrinks the remainder, so `s.length + 1` fuel always
suffices and the fuel never runs out. -/
def pySplitSeqGo (sep : PStr) : Nat → PStr → List PStr
  | 0, s => [s]
  | fuel + 1, s =>
    match splitFirstSub sep s with
    | none => [s]
    | some (p, q) => p :: pySplitSeqGo sep fuel q

/-- Python `s.split(sep)` for a multi-character nonempty separator (used for
`'\r\n'`): repeated leftmost splitting, keeping empty chunks. -/
def pySplitSeq (sep : PStr) (s : PStr) : List PStr :=
  if sep = [] then [s] else pySplitSeqGo sep (s.length + 1) s

/-- Python `sep.join(chunks)`. -/
def joinSep (sep : PStr) : List PStr → PStr
  | [] => []
  | [x] => x
  | x :: xs => x ++ sep ++ joinSep sep xs

/-- UTF-8 encoding of one character (Python `str.encode('utf-8')`,
per scalar value). -/
def utf8Char (c : Char) : Bytes :=
  if c.toNat < 0x80 then [c.toNat]
  else if c.toNat < 0x800 then [0xC0 + c.toNat / 0x40, 0x80 + c.toNat % 0x40]
  else if c.toNat < 0x10000 then
    [0xE0 + c.toNat / 0x1000, 0x80 + c.toNat / 0x40 % 0x40, 0x80 + c.toNat % 0x40]
  else
    [0xF0 + c.toNat / 0x40000, 0x80 + c.toNat / 0x1000 % 0x40, 0x80 + c.toNat / 0x40 % 0x40,
      0x80 + c.toNat % 0x40]

/-- UTF-8 encoding of a string (Python `str.encode()`). -/
def utf8Encode : PStr → Bytes
  | [] => []
  | c :: cs => utf8Char c ++ utf8Encode cs

/-- One decimal digit as a character. -/
def decDigitChar : Nat → Char
  | 0 => '0'
  | 1 => '1'
  | 2 => '2'
  | 3 => '3'
  | 4 => '4'
  | 5 => '5'
  | 6 => '6'
  | 7 => '7'
  | 8 => '8'
  | _ => '9'

/-- Fuel-based helper for decimal rendering; each step divides by 10, so
`n + 1` fuel always suffices and the fuel never runs out. -/
def natToDecimalGo : Nat → Nat → PStr
  | 0, _ => []
  | fuel + 1, n =>
    if n < 10 then [decDigitChar n]
    else natToDecimalGo fuel (n / 10) ++ [decDigitChar (n % 10)]

/-- Decimal rendering of a natural number, as produced by Python string
interpolation of `len(body)`. -/
def natToDecimal (n : Nat) : PStr :=
  natToDecimalGo (n + 1) n

/-- Is a byte an ASCII decimal digit. -/
def isDigitByte (b : Nat) : Bool :=
  decide (48 ≤ b) && decide (b ≤ 57)

/-- Independent decimal parser over bytes, used to read back the
`Content-Length` value from a serialized response. -/
def parseDec (bs : Bytes) : Option Nat :=
  if bs.isEmpty then none
  else if bs.all isDigitByte then some (bs.foldl (fun a b => a * 10 + (b - 48)) 0)
  else none

/-- Digit run of Python `int(str)` after the optional sign: ASCII digits with
single underscores allowed between digits. -/
def digitsURun (acc : Nat) : PStr → Option Nat
  | [] => some acc
  | '_' :: c :: rest =>
    if c.isDigit then digitsURun (acc * 10 + (c.toNat - 48)) rest else none
  | ['_'] => none
  | c :: rest =>
    if c.isDigit then digitsURun (acc * 10 + (c.toNat - 48)) rest else none

/-- Nonempty digit run starting the numeral (no leading underscore). -/
def digitsU (s : PStr) : Option Nat :=
  match s with
  | [] => none
  | c :: rest => if c.isDigit then digitsURun (c.toNat - 48) rest else none

/-- Python `int(str)`: strip whitespace, optional sign, ASCII decimal digits
(underscores between digits accepted); `none` models the `ValueError`
(non-ASCII digits are not modelled). -/
def pyInt? (s : PStr) : Option Int :=
  match pyStrip s with
  | '+' :: r => (digitsU r).map (fun m => (m : Int))
  | '-' :: r => (digitsU r).map (fun m => -(m : Int))
  | r => (digitsU r).map (fun m => (m : Int))

/-- Python `b[:n]` on bytes, including the negative-stop case where the stop
index counts from the end, clamped at zero. -/
def pySlice (b : Bytes) (n : Int) : Bytes :=
  if 0 ≤ n then b.take n.toNat
  else b.take ((b.length : Int) + n).toNat

/-- Python `os.path.normpath` for ABSOLUTE POSIX paths: split on `/`, drop
empty and `.` components, resolve `..` textually (at the root, `..` is
dropped). Relative paths never reach it here because the store's base
directory is absolute. The POSIX double-leading-slash quirk is not
modelled. -/
def normpathAbs (p : PStr) : PStr :=
  let comps := pySplitChar '/' p
  let stack := comps.foldl
    (fun st c =>
      if c.isEmpty || c == ".".data then st
      else if c == "..".data then st.dropLast
      else st ++ [c]) []
  '/' :: joinSep ['/'] stack

/-- Python `os.path.abspath` for absolute inputs (every path the handler
checks is absolute since `base_dir` is absolute, so `cwd` resolution never
applies); symlinks are NOT resolved, exactly as in `abspath`. -/
def abspathA (p : PStr) : PStr :=
  normpathAbs p

/-- Python `os.path.join(a, b)` for POSIX: an absolute `b` discards `a`. -/
def pyJoin (a b : PStr) : PStr :=
  if b.headD ' ' == '/' then b
  else if a = [] then b
  else if a.getLast? = some '/' then a ++ b
  else a ++ '/' :: b

/-- The intended containment property from the spec: the resolved path is the
base directory itself or lies strictly below it as a PATH prefix (not a mere
string prefix). -/
def isPathUnder (base p : PStr) : Bool :=
  p == base || (base ++ ['/']).isPrefixOf p

/-- Parsed request object (`HTTPRequest.__init__` field defaults are the
empty values; `_parse` fills them unless it fails). -/
structure HTTPRequest where
  method : PStr
  path : PStr
  headers : List (PStr × PStr)
  body : Bytes
deriving DecidableEq

/-- The header section of a raw request: text before the first blank-line
delimiter, or the whole text when there is none (`server.py` lines 24-27). -/
def headersSectionOf (raw : PStr) : PStr :=
  match splitFirstSub ("\r\n\r\n".data) raw with
  | some p => p.1
  | none => raw

/-- The body section of a raw request: text after the first blank-line
delimiter, empty when there is none. -/
def bodySectionOf (raw : PStr) : PStr :=
  match splitFirstSub ("\r\n\r\n".data) raw with
  | some p => p.2
  | none => []

/-- Header lines into dict entries: lines without `:` are skipped; the key is
lower-cased then stripped, the value stripped (`server.py` lines 35-38). -/
def parseHeaderLines : List PStr → List (PStr × PStr)
  | [] => []
  | line :: rest =>
    match splitFirstSub [':'] line with
    | some (k, v) => (pyStrip (pyLower k), pyStrip v) :: parseHeaderLines rest
    | none => parseHeaderLines rest

/-- `HTTPRequest._parse`: the first-line unpack `method, path, _ = split()`
raises unless there are EXACTLY three whitespace-separated tokens; the
exception is caught inside `_parse` itself, leaving every field at its
`__init__` default (`server.py` lines 21-43). -/
def parseHTTPRequest (raw : PStr) : HTTPRequest :=
  let header_lines := pySplitSeq ("\r\n".data) (headersSectionOf raw)
  match pyWhitespaceSplit (header_lines.headD []) with
  | [m, p, _v] => ⟨m, p, parseHeaderLines header_lines.tail, utf8Encode (bodySectionOf raw)⟩
  | _ => ⟨[], [], [], []⟩

/-- `HTTPRequest.accepts_gzip` (`server.py` lines 45-51). -/
def accepts_gzip (r : HTTPRequest) : Bool :=
  let accept_encoding := (dictGet r.headers ("accept-encoding".data)).getD []
  let encodings := (pySplitChar ',' accept_encoding).map (fun e => pyLower (pyStrip e))
  decide ("gzip".data ∈ encodings)

/-- Filesystem state: resolved absolute path to file bytes, newest first. -/
abbrev FS := List (PStr × Bytes)

/-- Lookup in the filesystem model. -/
def fsGet : FS → PStr → Option Bytes
  | [], _ => none
  | (k', v) :: rest, k => if k' = k then some v else fsGet rest k

/-- `FileHandler.is_safe_path`: string `startswith` of the base directory on
the textually absolutized candidate (`server.py` lines 58-61). -/
def is_safe_path (base filepath : PStr) : Bool :=
  base.isPrefixOf (abspathA filepath)

/-- `FileHandler.read_file` (`server.py` lines 63-73): join, safety check,
then a binary read whose I/O failure (missing file) yields `(None, False)`. -/
def read_file (base : PStr) (fs : FS) (filename : PStr) : Option Bytes × Bool :=
  let filepath := pyJoin base filename
  if !is_safe_path base filepath then (none, false)
  else
    match fsGet fs (abspathA filepath) with
    | some c => (some c, true)
    | none => (none, false)

/-- `FileHandler.write_file` (`server.py` lines 75-87): join, safety check,
create parents, overwrite; returns the success flag and the new filesystem. -/
def write_file (base : PStr) (fs : FS) (filename : PStr) (content : Bytes) : Bool × FS :=
  let filepath := pyJoin base filename
  if !is_safe_path base filepath then (false, fs)
  else (true, (abspathA filepath, content) :: fs)

/-- The `body` argument of `make_response`: `None`, `str`, or `bytes`. -/
inductive PyBody where
  | noneB : PyBody
  | str : PStr → PyBody
  | bytes : Bytes → PyBody
deriving DecidableEq

/-- Body normalization at the top of `make_response` (lines 102-107). -/
def normBody : PyBody → Bytes
  | .noneB => []
  | .str s => utf8Encode s
  | .bytes b => b

/-- `HTTPServer.make_response` (`server.py` lines 99-129); `compress` stands
for `gzip.compress`. -/
def make_response (compress : Bytes → Bytes) (status : PStr) (body : PyBody)
    (content_type : PStr) (use_gzip : Bool) : Bytes :=
  let b1 := normBody body
  let b2 := if use_gzip then compress b1 else b1
  let headerLines :=
    [("HTTP/1.1 ".data) ++ status, ("Content-Type: ".data) ++ content_type]
    ++ (if use_gzip then [("Content-Encoding: gzip".data)] else [])
    ++ [("Content-Length: ".data) ++ natToDecimal b2.length, [], []]
  utf8Encode (joinSep ("\r\n".data) headerLines) ++ b2

/-- `make_response(status)` with all defaults (`body=""`,
`content_type="text/plain"`, `use_gzip=False`): the shape of every error
response the server emits (and of the bodyless `201 Created`). The compressor
is irrelevant because gzip is off. -/
def plainResponse (status : PStr) : Bytes :=
  make_response (fun b => b) status (.str []) ("text/plain".data) false

/-- The header strings of a response with the given status, content type,
gzip flag and declared length, before CRLF serialization. -/
def headerStrs (s t : PStr) (g : Bool) (len : Nat) : List PStr :=
  [("HTTP/1.1 ".data) ++ s, ("Content-Type: ".data) ++ t]
  ++ (if g then [("Content-Encoding: gzip".data)] else [])
  ++ [("Content-Length: ".data) ++ natToDecimal len]

/-- `HTTPServer.handle_file_request` (`server.py` lines 131-168). -/
def handle_file_request (compress : Bytes → Bytes) (base : PStr) (fs : FS)
    (req : HTTPRequest) : Bytes × FS :=
  let filename := req.path.drop 7
  let supports_gzip := accepts_gzip req
  if filename = [] then
    (make_response compress ("400 Bad Request".data) (.str []) ("text/plain".data) false, fs)
  else if req.method = "POST".data then
    match pyInt? ((dictGet req.headers ("content-length".data)).getD ("0".data)) with
    | none =>
      (make_response compress ("400 Bad Request".data) (.str []) ("text/plain".data) false, fs)
    | some content_length =>
      if content_length = 0 then
        (make_response compress ("400 Bad Request".data) (.str []) ("text/plain".data) false, fs)
      else
        let content := pySlice req.body content_length
        let w := write_file base fs filename content
        if w.1 then
          (make_response compress ("201 Created".data) (.str []) ("text/plain".data) false, w.2)
        else
          (make_response compress ("500 Internal Server Error".data) (.str [])
            ("text/plain".data) false, fs)
  else if req.method = "GET".data then
    match read_file base fs filename with
    | (some content, true) =>
      (make_response compress ("200 OK".data) (.bytes content)
        ("application/octet-stream".data) supports_gzip, fs)
    | _ =>
      (make_response compress ("404 Not Found".data) (.str []) ("text/plain".data) false, fs)
  else
    (make_response compress ("405 Method Not Allowed".data) (.str []) ("text/plain".data) false,
      fs)

/-- The dispatch body of `HTTPServer.handle_request` on an already-parsed
request (`server.py` lines 174-202); the route dict with its two lambdas is
the two equality branches plus the 404 default of `routes.get`. -/
def handleRequestParsed (compress : Bytes → Bytes) (base : PStr) (fs : FS)
    (req : HTTPRequest) : Bytes × FS :=
  let supports_gzip := accepts_gzip req
  if ("/files/".data).isPrefixOf req.path then
    handle_file_request compress base fs req
  else if ("/echo/".data).isPrefixOf req.path then
    (make_response compress ("200 OK".data) (.str (req.path.drop 6)) ("text/plain".data)
      supports_gzip, fs)
  else if req.path = "/".data then
    (make_response compress ("200 OK".data) (.str ("Welcome to the root path!".data))
      ("text/plain".data) supports_gzip, fs)
  else if req.path = "/user-agent".data then
    (make_response compress ("200 OK".data)
      (.str ((dictGet req.headers ("user-agent".data)).getD ("Missing User-Agent".data)))
      ("text/plain".data) supports_gzip, fs)
  else
    (make_response compress ("404 Not Found".data) (.str []) ("text/plain".data) false, fs)

/-- `HTTPServer.handle_request` (`server.py` lines 170-206): construct the
request then dispatch. The enclosing `try` has no live throwing path in the
model: `_parse` catches its own exceptions and every handler is total, so the
`except` fallback to 400 is unreachable. -/
def handle_request (compress : Bytes → Bytes) (base : PStr) (fs : FS) (raw : PStr) :
    Bytes × FS :=
  handleRequestParsed compress base fs (parseHTTPRequest raw)

/-- Is a byte a UTF-8 continuation byte. -/
def utf8Cont (b : Nat) : Bool :=
  decide (0x80 ≤ b) && decide (b < 0xC0)

/-- Fuel-based strict UTF-8 decoder; each step consumes at least one byte, so
`l.length + 1` fuel always suffices and the fuel never runs out. -/
def utf8DecodeGo : Nat → List Nat → Option PStr
  | 0, l => match l with | [] => some [] | _ :: _ => none
  | fuel + 1, l =>
    match l with
    | [] => some []
    | b :: rest =>
      if b < 0x80 then (utf8DecodeGo fuel rest).map (fun cs => Char.ofNat b :: cs)
      else if b < 0xC2 then none
      else if b < 0xE0 then
        match rest with
        | b1 :: r =>
          if utf8Cont b1 then
            (utf8DecodeGo fuel r).map
              (fun cs => Char.ofNat ((b - 0xC0) * 0x40 + (b1 - 0x80)) :: cs)
          else none
        | [] => none
      else if b < 0xF0 then
        match rest with
        | b1 :: b2 :: r =>
          if utf8Cont b1 && utf8Cont b2
              && decide (0x800 ≤ (b - 0xE0) * 0x1000 + (b1 - 0x80) * 0x40 + (b2 - 0x80))
              && (decide ((b - 0xE0) * 0x1000 + (b1 - 0x80) * 0x40 + (b2 - 0x80) < 0xD800)
                  || decide (0xE000 ≤ (b - 0xE0) * 0x1000 + (b1 - 0x80) * 0x40 + (b2 - 0x80)))
              then
            (utf8DecodeGo fuel r).map
              (fun cs => Char.ofNat ((b - 0xE0) * 0x1000 + (b1 - 0x80) * 0x40 + (b2 - 0x80)) :: cs)
          else none
        | _ => none
      else if b < 0xF5 then
        match rest with
        | b1 :: b2 :: b3 :: r =>
          if utf8Cont b1 && utf8Cont b2 && utf8Cont b3
              && decide (0x10000 ≤
                  (b - 0xF0) * 0x40000 + (b1 - 0x80) * 0x1000 + (b2 - 0x80) * 0x40 + (b3 - 0x80))
              && decide ((b - 0xF0) * 0x40000 + (b1 - 0x80) * 0x1000 + (b2 - 0x80) * 0x40
                  + (b3 - 0x80) ≤ 0x10FFFF) then
            (utf8DecodeGo fuel r).map
              (fun cs => Char.ofNat ((b - 0xF0) * 0x40000 + (b1 - 0x80) * 0x1000
                + (b2 - 0x80) * 0x40 + (b3 - 0x80)) :: cs)
          else none
        | _ => none
      else none

/-- Strict UTF-8 decoding (Python `bytes.decode()`): rejects stray
continuation bytes, overlong forms, surrogates and values above `0x10FFFF`;
`none` models the `UnicodeDecodeError`. -/
def utf8Decode? (l : List Nat) : Option PStr :=
  utf8DecodeGo (l.length + 1) l

/-- `handle_client` (`server.py` lines 208-215): decode the received bytes,
dispatch, send. There is no `except` clause: when `.decode()` raises, no
response is produced (`none`) and the exception escapes the task; the
`finally` closes the socket on every path either way. -/
def handle_client (compress : Bytes → Bytes) (base : PStr) (fs : FS) (data : List Nat) :
    Option Bytes × FS :=
  match utf8Decode? data with
  | none => (none, fs)
  | some raw =>
    let r := handle_request compress base fs raw
    (some r.1, r.2)

/-- Independent response reader: split a serialized response at the FIRST
occurrence of the bytes CR LF CR LF into header block and transmitted body. -/
def splitCRLFCRLF : List Nat → Option (List Nat × List Nat)
  | [] => none
  | b :: rest =>
    if b = 13 ∧ rest.take 3 = [10, 13, 10] then some ([], rest.drop 3)
    else (splitCRLFCRLF rest).map (fun p => (b :: p.1, p.2))

/-- Helper for the line splitter: prepend a byte to the first chunk. -/
def consHdB (b : Nat) : List (List Nat) → List (List Nat)
  | [] => [[b]]
  | h :: t => (b :: h) :: t

/-- Independent response reader: split a header block into its CRLF-separated
lines. -/
def splitLinesCRLF : List Nat → List (List Nat)
  | [] => [[]]
  | b :: rest =>
    if b = 13 ∧ rest.take 1 = [10] then [] :: splitLinesCRLF (rest.drop 1)
    else consHdB b (splitLinesCRLF rest)
termination_by l => l.length
decreasing_by
  all_goals simp only [List.length_drop, List.length_cons]
  all_goals omega

/-- Join byte lines with CRLF separators (the serialized shape of a header
block before its final blank line). -/
def linesJoin : List (List Nat) → List Nat
  | [] => []
  | [x] => x
  | x :: xs => x ++ 13 :: 10 :: linesJoin xs

/-- First header line starting with the bytes of `Content-Length: `. -/
def findCL : List (List Nat) → Option (List Nat)
  | [] => none
  | l :: rest =>
    if (utf8Encode ("Content-Length: ".data)).isPrefixOf l then some l else findCL rest

/-- Independent response reader: the declared `Content-Length` value of a
header block, parsed back out of the serialized bytes. -/
def contentLengthOf (hdr : List Nat) : Option Nat :=
  match findCL (splitLinesCRLF hdr) with
  | some l => parseDec (l.drop (utf8Encode ("Content-Length: ".data)).length)
  | none => none

/-- Concrete POST request with a declared length longer than its body. -/
def C4req : HTTPRequest :=
  ⟨"POST".data, "/files/a".data, [("content-length".data, "5".data)], [104, 105]⟩

/-- Concrete POST request used to instantiate the amended C4 statement. -/
def C4wreq : HTTPRequest :=
  ⟨"POST".data, "/files/b".data, [("content-length".data, "3".data)], [1, 2, 3, 4]⟩

/-- Concrete request whose accept-encoding lists gzip among other tokens. -/
def C5req : HTTPRequest :=
  ⟨"GET".data, "/".data, [("accept-encoding".data, "deflate, GZIP ".data)], []⟩

/-- Concrete echo request used to instantiate the C10 statement. -/
def C10req : HTTPRequest := ⟨"GET".data, "/echo/hey".data, [], []⟩

/-! ## Helper lemmas -/

theorem ipo_cons {α : Type} [BEq α] (a b : α) (as bs : List α) :
    List.isPrefixOf (a :: as) (b :: bs) = ((a == b) && List.isPrefixOf as bs) := rfl

theorem isPrefixOf_append_self {α : Type} [BEq α] [LawfulBEq α] :
    ∀ (xs ys : List α), List.isPrefixOf xs (xs ++ ys) = true := by
  intro xs ys
  induction xs with
  | nil => cases ys <;> rfl
  | cons a as ih => simp [ipo_cons, ih]

theorem ipo_trans {α : Type} [BEq α] [LawfulBEq α] :
    ∀ (xs ys zs : List α), List.isPrefixOf xs ys = true → List.isPrefixOf ys zs = true →
      List.isPrefixOf xs zs = true := by
  intro xs
  induction xs with
  | nil => intro ys zs _ _; cases zs <;> rfl
  | cons a as ih =>
    intro ys zs h1 h2
    cases ys with
    | nil => simp [List.isPrefixOf] at h1
    | cons b bs =>
      cases zs with
      | nil => simp [List.isPrefixOf] at h2
      | cons c cs =>
        rw [ipo_cons] at h1 h2 ⊢
        rw [Bool.and_eq_true] at h1 h2 ⊢
        obtain ⟨hab, h1'⟩ := h1
        obtain ⟨hbc, h2'⟩ := h2
        refine ⟨?_, ih bs cs h1' h2'⟩
        rw [eq_of_beq hab, eq_of_beq hbc]
        exact beq_self_eq_true c

theorem ipo_exists_append {α : Type} [BEq α] [LawfulBEq α] :
    ∀ (xs ys : List α), List.isPrefixOf xs ys = true → ∃ t, ys = xs ++ t := by
  intro xs
  induction xs with
  | nil => intro ys _; exact ⟨ys, rfl⟩
  | cons a as ih =>
    intro ys h
    cases ys with
    | nil => simp [List.isPrefixOf] at h
    | cons b bs =>
      rw [ipo_cons, Bool.and_eq_true] at h
      obtain ⟨hab, h'⟩ := h
      obtain ⟨t, rfl⟩ := ih bs h'
      exact ⟨t, by rw [eq_of_beq hab]; rfl⟩

theorem utf8Encode_append : ∀ (a b : PStr), utf8Encode (a ++ b) = utf8Encode a ++ utf8Encode b := by
  intro a b
  induction a with
  | nil => rfl
  | cons c cs ih => simp [utf8Encode, ih, List.append_assoc]

theorem utf8Char_mem13 (c : Char) (h : (13 : Nat) ∈ utf8Char c) : c = '\r' := by
  unfold utf8Char at h
  split_ifs at h with h1 h2 h3
  · simp at h
    have hn : c.toNat = 13 := by omega
    have hc : Char.ofNat c.toNat = Char.ofNat 13 := by rw [hn]
    rw [Char.ofNat_toNat] at hc
    exact hc.trans (by decide)
  · simp at h
    omega
  · simp at h
    omega
  · simp at h
    omega

theorem utf8_no13 (s : PStr) (h : '\r' ∉ s) : (13 : Nat) ∉ utf8Encode s := by
  induction s with
  | nil => simp [utf8Encode]
  | cons c cs ih =>
    simp only [utf8Encode, List.mem_append]
    rintro (hm | hm)
    · exact h (by rw [utf8Char_mem13 c hm]; exact List.mem_cons_self _ _)
    · exact ih (fun hc => h (List.mem_cons_of_mem c hc)) hm

theorem utf8Char_ne_nil (c : Char) : utf8Char c ≠ [] := by
  unfold utf8Char
  split_ifs <;> simp

theorem utf8Encode_cons_ne_nil (c : Char) (cs : PStr) : utf8Encode (c :: cs) ≠ [] := by
  simp only [utf8Encode]
  intro h
  exact utf8Char_ne_nil c (List.append_eq_nil.mp h).1

theorem no13_of_digits (bs : Bytes) (h : bs.all isDigitByte = true) : (13 : Nat) ∉ bs := by
  intro hm
  have := List.all_eq_true.mp h 13 hm
  simp [isDigitByte] at this

theorem scc_start (B : List Nat) : splitCRLFCRLF (13 :: 10 :: 13 :: 10 :: B) = some ([], B) := by
  rw [splitCRLFCRLF]
  simp

theorem scc_cons_skip (b : Nat) (rest : List Nat) (h : ¬(b = 13 ∧ rest.take 3 = [10, 13, 10])) :
    splitCRLFCRLF (b :: rest) = (splitCRLFCRLF rest).map (fun p => (b :: p.1, p.2)) := by
  rw [splitCRLFCRLF, if_neg h]

theorem scc_no13 (xs : List Nat) (h13 : (13 : Nat) ∉ xs) (ys : List Nat) :
    splitCRLFCRLF (xs ++ ys) = (splitCRLFCRLF ys).map (fun p => (xs ++ p.1, p.2)) := by
  induction xs with
  | nil =>
    simp only [List.nil_append]
    cases splitCRLFCRLF ys with
    | none => rfl
    | some p => simp
  | cons a xs ih =>
    have ha : a ≠ 13 := by
      intro e
      subst e
      exact h13 (List.mem_cons_self _ _)
    rw [List.cons_append, scc_cons_skip a (xs ++ ys) (by rintro ⟨e, -⟩; exact ha e)]
    rw [ih (fun hm => h13 (List.mem_cons_of_mem a hm))]
    cases splitCRLFCRLF ys with
    | none => rfl
    | some p => simp

theorem scc_seam (a : Nat) (ha : a ≠ 13) (l : List Nat) :
    splitCRLFCRLF (13 :: 10 :: a :: l)
      = (splitCRLFCRLF (a :: l)).map (fun p => (13 :: 10 :: p.1, p.2)) := by
  have h1 : ¬((13 : Nat) = 13 ∧ (10 :: a :: l).take 3 = [10, 13, 10]) := by
    rintro ⟨-, ht⟩
    rw [List.take_succ_cons, List.take_succ_cons] at ht
    simp at ht
    exact ha ht.1
  have h2 : ¬((10 : Nat) = 13 ∧ (a :: l).take 3 = [10, 13, 10]) := by
    rintro ⟨e, -⟩
    exact absurd e (by omega)
  rw [scc_cons_skip 13 _ h1, scc_cons_skip 10 _ h2]
  cases splitCRLFCRLF (a :: l) with
  | none => rfl
  | some p => simp

theorem scc_joined : ∀ (ls : List (List Nat)) (B : List Nat), ls ≠ [] →
    (∀ l ∈ ls, (13 : Nat) ∉ l) → (∀ l ∈ ls, l ≠ []) →
    splitCRLFCRLF (linesJoin ls ++ 13 :: 10 :: 13 :: 10 :: B) = some (linesJoin ls, B) := by
  intro ls
  induction ls with
  | nil => intro B hne _ _; exact absurd rfl hne
  | cons x ls ih =>
    intro B _ h13 hhd
    cases ls with
    | nil =>
      have h13x : (13 : Nat) ∉ x := h13 x (List.mem_cons_self _ _)
      rw [show linesJoin [x] = x from rfl]
      rw [scc_no13 x h13x, scc_start]
      simp
    | cons y ls' =>
      have h13x : (13 : Nat) ∉ x := h13 x (List.mem_cons_self _ _)
      have hyne : y ≠ [] := hhd y (List.mem_cons_of_mem _ (List.mem_cons_self _ _))
      obtain ⟨b, y', rfl⟩ : ∃ b y', y = b :: y' := by
        cases y with
        | nil => exact absurd rfl hyne
        | cons b y' => exact ⟨b, y', rfl⟩
      have hb : b ≠ 13 := by
        intro e
        subst e
        exact h13 (13 :: y') (List.mem_cons_of_mem _ (List.mem_cons_self _ _))
          (List.mem_cons_self _ _)
      obtain ⟨T, hT⟩ : ∃ T, linesJoin ((b :: y') :: ls') = b :: T := by
        cases ls' with
        | nil => exact ⟨y', rfl⟩
        | cons z zs => exact ⟨y' ++ 13 :: 10 :: linesJoin (z :: zs), rfl⟩
      have hIH := ih B (by simp)
        (fun l hl => h13 l (List.mem_cons_of_mem x hl))
        (fun l hl => hhd l (List.mem_cons_of_mem x hl))
      rw [hT] at hIH
      rw [List.cons_append] at hIH
      rw [show linesJoin (x :: (b :: y') :: ls') = x ++ 13 :: 10 :: linesJoin ((b :: y') :: ls')
        from rfl]
      rw [hT]
      rw [List.append_assoc, List.cons_append, List.cons_append, List.cons_append]
      rw [scc_no13 x h13x]
      rw [scc_seam b hb]
      rw [hIH]
      simp

theorem slc_ne_nil (l : List Nat) : splitLinesCRLF l ≠ [] := by
  rw [splitLinesCRLF.eq_def]
  split
  · simp
  · split
    · simp
    · cases splitLinesCRLF _ <;> simp [consHdB]

theorem slc_cons_skip (b : Nat) (rest : List Nat) (h : ¬(b = 13 ∧ rest.take 1 = [10])) :
    splitLinesCRLF (b :: rest) = consHdB b (splitLinesCRLF rest) := by
  rw [splitLinesCRLF, if_neg h]

theorem slc_seam (ys : List Nat) : splitLinesCRLF (13 :: 10 :: ys) = [] :: splitLinesCRLF ys := by
  rw [splitLinesCRLF]
  simp

theorem slc_no13 (xs : List Nat) (h13 : (13 : Nat) ∉ xs) :
    ∀ (ys : List Nat) (h t : _), splitLinesCRLF ys = h :: t →
      splitLinesCRLF (xs ++ ys) = (xs ++ h) :: t := by
  induction xs with
  | nil => intro ys h t he; simpa using he
  | cons a xs ih =>
    intro ys h t he
    have ha : a ≠ 13 := by
      intro e
      subst e
      exact h13 (List.mem_cons_self _ _)
    rw [List.cons_append, slc_cons_skip a _ (by rintro ⟨e, -⟩; exact ha e)]
    rw [ih (fun hm => h13 (List.mem_cons_of_mem a hm)) ys h t he]
    rfl

theorem slc_single (xs : List Nat) (h13 : (13 : Nat) ∉ xs) : splitLinesCRLF xs = [xs] := by
  have := slc_no13 xs h13 [] [] [] (by rw [splitLinesCRLF])
  simpa using this

theorem slc_joined : ∀ (ls : List (List Nat)), ls ≠ [] →
    (∀ l ∈ ls, (13 : Nat) ∉ l) → (∀ l ∈ ls, l ≠ []) →
    splitLinesCRLF (linesJoin ls) = ls := by
  intro ls
  induction ls with
  | nil => intro hne _ _; exact absurd rfl hne
  | cons x ls ih =>
    intro _ h13 hhd
    cases ls with
    | nil => exact slc_single x (h13 x (List.mem_cons_self _ _))
    | cons y ls' =>
      have h13x := h13 x (List.mem_cons_self _ _)
      have hIH := ih (by simp)
        (fun l hl => h13 l (List.mem_cons_of_mem x hl))
        (fun l hl => hhd l (List.mem_cons_of_mem x hl))
      have hseam : splitLinesCRLF (13 :: 10 :: linesJoin (y :: ls')) = [] :: y :: ls' := by
        rw [slc_seam, hIH]
      have hmain := slc_no13 x h13x (13 :: 10 :: linesJoin (y :: ls')) [] (y :: ls') hseam
      rw [show linesJoin (x :: y :: ls') = x ++ 13 :: 10 :: linesJoin (y :: ls') from rfl]
      rw [hmain]
      simp

theorem utf8Char_digit (d : Nat) (h : d < 10) : utf8Char (decDigitChar d) = [48 + d] := by
  interval_cases d <;> decide

theorem nd_go_spec : ∀ (fuel n : Nat), n < fuel →
    utf8Encode (natToDecimalGo fuel n) ≠ []
    ∧ (utf8Encode (natToDecimalGo fuel n)).all isDigitByte = true
    ∧ (utf8Encode (natToDecimalGo fuel n)).foldl (fun a b => a * 10 + (b - 48)) 0 = n := by
  intro fuel
  induction fuel with
  | zero => intro n h; exact absurd h (Nat.not_lt_zero n)
  | succ fuel ih =>
    intro n h
    by_cases h10 : n < 10
    · rw [natToDecimalGo, if_pos h10]
      refine ⟨by simp [utf8Encode, utf8Char_digit n h10], ?_, ?_⟩
      · simp [utf8Encode, utf8Char_digit n h10, isDigitByte]
        omega
      · simp [utf8Encode, utf8Char_digit n h10]
    · rw [natToDecimalGo, if_neg h10]
      have hlt : n / 10 < n := Nat.div_lt_self (by omega) (by omega)
      have hfuel : n / 10 < fuel := by omega
      obtain ⟨ih1, ih2, ih3⟩ := ih (n / 10) hfuel
      rw [utf8Encode_append]
      have hm : n % 10 < 10 := Nat.mod_lt _ (by omega)
      rw [show utf8Encode [decDigitChar (n % 10)] = [48 + n % 10] by
        simp [utf8Encode, utf8Char_digit _ hm]]
      refine ⟨by simp, ?_, ?_⟩
      · rw [List.all_append]
        simp [ih2, isDigitByte]
        omega
      · rw [List.foldl_append, ih3]
        simp
        omega

theorem nd_spec (n : Nat) :
    utf8Encode (natToDecimal n) ≠ []
    ∧ (utf8Encode (natToDecimal n)).all isDigitByte = true
    ∧ (utf8Encode (natToDecimal n)).foldl (fun a b => a * 10 + (b - 48)) 0 = n := by
  have := nd_go_spec (n + 1) n (by omega)
  simpa [natToDecimal] using this

theorem parseDec_natToDecimal (n : Nat) : parseDec (utf8Encode (natToDecimal n)) = some n := by
  obtain ⟨h1, h2, h3⟩ := nd_spec n
  have hbe : (utf8Encode (natToDecimal n)).isEmpty = false := by
    cases hbs : utf8Encode (natToDecimal n) with
    | nil => exact absurd hbs h1
    | cons a l => rfl
  rw [parseDec, hbe, if_neg (by simp), if_pos h2, h3]

theorem utf8_rn : utf8Encode ("\r\n".data) = [13, 10] := by decide

theorem u_joinSep_lines : ∀ (ls : List PStr), ls ≠ [] →
    utf8Encode (joinSep ("\r\n".data) (ls ++ [[], []]))
      = linesJoin (ls.map utf8Encode) ++ [13, 10, 13, 10] := by
  intro ls
  induction ls with
  | nil => intro h; exact absurd rfl h
  | cons x ls ih =>
    intro _
    cases ls with
    | nil =>
      have h1 : joinSep ("\r\n".data) ([x] ++ [[], []])
          = x ++ "\r\n".data ++ joinSep ("\r\n".data) [[], []] := rfl
      have h2 : joinSep ("\r\n".data) [([] : PStr), []]
          = [] ++ "\r\n".data ++ joinSep ("\r\n".data) [[]] := rfl
      rw [h1, h2]
      simp [joinSep, utf8Encode_append, utf8_rn, linesJoin]
      decide
    | cons y t =>
      have hstep : joinSep ("\r\n".data) ((x :: y :: t) ++ [[], []])
          = x ++ "\r\n".data ++ joinSep ("\r\n".data) ((y :: t) ++ [[], []]) := rfl
      rw [hstep, utf8Encode_append, utf8Encode_append, utf8_rn, ih (by simp)]
      rw [show (x :: y :: t).map utf8Encode = utf8Encode x :: (y :: t).map utf8Encode from rfl]
      rw [show (y :: t).map utf8Encode = utf8Encode y :: t.map utf8Encode from rfl]
      rw [show linesJoin (utf8Encode x :: utf8Encode y :: t.map utf8Encode)
          = utf8Encode x ++ 13 :: 10 :: linesJoin (utf8Encode y :: t.map utf8Encode) from rfl]
      simp [List.append_assoc]

theorem headerStrs_blank (s t : PStr) (g : Bool) (len : Nat) :
    [("HTTP/1.1 ".data) ++ s, ("Content-Type: ".data) ++ t]
      ++ (if g then [("Content-Encoding: gzip".data)] else [])
      ++ [("Content-Length: ".data) ++ natToDecimal len, [], []]
      = headerStrs s t g len ++ [[], []] := by
  cases g <;> simp [headerStrs]

theorem make_response_expand (c : Bytes → Bytes) (s : PStr) (b : PyBody) (t : PStr) (g : Bool) :
    make_response c s b t g =
      linesJoin ((headerStrs s t g
          (if g then c (normBody b) else normBody b).length).map utf8Encode)
        ++ 13 :: 10 :: 13 :: 10 :: (if g then c (normBody b) else normBody b) := by
  simp only [make_response]
  rw [headerStrs_blank]
  rw [u_joinSep_lines _ (by cases g <;> simp [headerStrs])]
  simp [List.append_assoc]

theorem no13_append_parts (a b : PStr) (ha : '\r' ∉ a) (hb : '\r' ∉ b) :
    (13 : Nat) ∉ utf8Encode (a ++ b) := by
  apply utf8_no13
  intro hm
  rcases List.mem_append.mp hm with h | h
  · exact ha h
  · exact hb h

theorem no13_CL_line (len : Nat) :
    (13 : Nat) ∉ utf8Encode (("Content-Length: ".data) ++ natToDecimal len) := by
  rw [utf8Encode_append]
  intro hm
  rcases List.mem_append.mp hm with h | h
  · exact (by decide : (13 : Nat) ∉ utf8Encode ("Content-Length: ".data)) h
  · exact no13_of_digits _ (nd_spec len).2.1 h

theorem hdr_no13 (s t : PStr) (g : Bool) (len : Nat) (hs : '\r' ∉ s) (ht : '\r' ∉ t) :
    ∀ l ∈ (headerStrs s t g len).map utf8Encode, (13 : Nat) ∉ l := by
  intro l hl
  cases g <;> simp [headerStrs] at hl
  · rcases hl with rfl | rfl | rfl
    · exact no13_append_parts ("HTTP/1.1 ".data) s (by decide) hs
    · exact no13_append_parts ("Content-Type: ".data) t (by decide) ht
    · exact no13_CL_line len
  · rcases hl with rfl | rfl | rfl | rfl
    · exact no13_append_parts ("HTTP/1.1 ".data) s (by decide) hs
    · exact no13_append_parts ("Content-Type: ".data) t (by decide) ht
    · decide
    · exact no13_CL_line len

theorem hdr_ne_nil (s t : PStr) (g : Bool) (len : Nat) :
    ∀ l ∈ (headerStrs s t g len).map utf8Encode, l ≠ [] := by
  intro l hl
  cases g <;> simp [headerStrs] at hl
  · rcases hl with rfl | rfl | rfl
    · exact utf8Encode_cons_ne_nil _ _
    · exact utf8Encode_cons_ne_nil _ _
    · exact utf8Encode_cons_ne_nil _ _
  · rcases hl with rfl | rfl | rfl | rfl
    · exact utf8Encode_cons_ne_nil _ _
    · exact utf8Encode_cons_ne_nil _ _
    · decide
    · exact utf8Encode_cons_ne_nil _ _

theorem findCL_cons (l : List Nat) (rest : List (List Nat)) :
    findCL (l :: rest)
      = if (utf8Encode ("Content-Length: ".data)).isPrefixOf l then some l
        else findCL rest := rfl

theorem clpfx_not_status (s : PStr) :
    (utf8Encode ("Content-Length: ".data)).isPrefixOf (utf8Encode (("HTTP/1.1 ".data) ++ s))
      = false := by
  rw [utf8Encode_append]
  rw [show utf8Encode ("Content-Length: ".data)
      = [67, 111, 110, 116, 101, 110, 116, 45, 76, 101, 110, 103, 116, 104, 58, 32] from
      by decide]
  rw [show utf8Encode ("HTTP/1.1 ".data) = [72, 84, 84, 80, 47, 49, 46, 49, 32] from by decide]
  simp [ipo_cons, List.cons_append]

theorem clpfx_not_ctype (t : PStr) :
    (utf8Encode ("Content-Length: ".data)).isPrefixOf
        (utf8Encode (("Content-Type: ".data) ++ t)) = false := by
  rw [utf8Encode_append]
  rw [show utf8Encode ("Content-Length: ".data)
      = [67, 111, 110, 116, 101, 110, 116, 45, 76, 101, 110, 103, 116, 104, 58, 32] from
      by decide]
  rw [show utf8Encode ("Content-Type: ".data)
      = [67, 111, 110, 116, 101, 110, 116, 45, 84, 121, 112, 101, 58, 32] from by decide]
  simp [ipo_cons, List.cons_append]

theorem clpfx_not_enc :
    (utf8Encode ("Content-Length: ".data)).isPrefixOf
        (utf8Encode ("Content-Encoding: gzip".data)) = false := by decide

theorem clpfx_self (m : Nat) :
    (utf8Encode ("Content-Length: ".data)).isPrefixOf
        (utf8Encode (("Content-Length: ".data) ++ natToDecimal m)) = true := by
  rw [utf8Encode_append]
  exact isPrefixOf_append_self _ _

theorem cl_extract (m : Nat) :
    parseDec ((utf8Encode (("Content-Length: ".data) ++ natToDecimal m)).drop
      (utf8Encode ("Content-Length: ".data)).length) = some m := by
  rw [utf8Encode_append, List.drop_left]
  exact parseDec_natToDecimal m

/-- Claim C6: in every response built by `make_response` - for any status,
body (including `None` and string bodies), content type and gzip flag - the
`Content-Length` header value equals the exact byte length of the body bytes
appended after the header block, post-compression when gzip is applied. The
response bytes are re-parsed by an independent reader: split at the first
CRLFCRLF, find the `Content-Length` line, and parse its decimal value. -/
theorem C6_content_length_exact (compress : Bytes → Bytes) (status ctype : PStr)
    (body : PyBody) (g : Bool) (hs : '\r' ∉ status) (ht : '\r' ∉ ctype) :
    ∃ hdr bodyB,
      splitCRLFCRLF (make_response compress status body ctype g) = some (hdr, bodyB)
      ∧ contentLengthOf hdr = some bodyB.length
      ∧ bodyB = (if g then compress (normBody body) else normBody body) := by
  have hexp := make_response_expand compress status body ctype g
  set b2 := (if g then compress (normBody body) else normBody body) with hb2
  refine ⟨linesJoin ((headerStrs status ctype g b2.length).map utf8Encode), b2, ?_, ?_, rfl⟩
  · rw [hexp]
    exact scc_joined _ b2 (by cases g <;> simp [headerStrs])
      (hdr_no13 status ctype g b2.length hs ht) (hdr_ne_nil status ctype g b2.length)
  · simp only [contentLengthOf]
    rw [slc_joined _ (by cases g <;> simp [headerStrs])
      (hdr_no13 status ctype g b2.length hs ht) (hdr_ne_nil status ctype g b2.length)]
    cases g
    · have e : (headerStrs status ctype false b2.length).map utf8Encode
          = [utf8Encode (("HTTP/1.1 ".data) ++ status),
             utf8Encode (("Content-Type: ".data) ++ ctype),
             utf8Encode (("Content-Length: ".data) ++ natToDecimal b2.length)] := rfl
      rw [e]
      rw [findCL_cons, if_neg (ne_true_of_eq_false (clpfx_not_status status))]
      rw [findCL_cons, if_neg (ne_true_of_eq_false (clpfx_not_ctype ctype))]
      rw [findCL_cons, if_pos (clpfx_self b2.length)]
      exact cl_extract b2.length
    · have e : (headerStrs status ctype true b2.length).map utf8Encode
          = [utf8Encode (("HTTP/1.1 ".data) ++ status),
             utf8Encode (("Content-Type: ".data) ++ ctype),
             utf8Encode ("Content-Encoding: gzip".data),
             utf8Encode (("Content-Length: ".data) ++ natToDecimal b2.length)] := rfl
      rw [e]
      rw [findCL_cons, if_neg (ne_true_of_eq_false (clpfx_not_status status))]
      rw [findCL_cons, if_neg (ne_true_of_eq_false (clpfx_not_ctype ctype))]
      rw [findCL_cons, if_neg (ne_true_of_eq_false clpfx_not_enc)]
      rw [findCL_cons, if_pos (clpfx_self b2.length)]
      exact cl_extract b2.length

/-- Witness for C6 at a compressor that changes the body length: the declared
`Content-Length` is the POST-compression length. -/
theorem C6_witness :
    ∃ hdr bodyB,
      splitCRLFCRLF (make_response (fun _ => [7, 7, 7]) ("200 OK".data)
          (.str ("hello".data)) ("text/plain".data) true) = some (hdr, bodyB)
      ∧ contentLengthOf hdr = some bodyB.length
      ∧ bodyB = (if true then (fun _ => [7, 7, 7]) (normBody (.str ("hello".data)))
          else normBody (.str ("hello".data))) :=
  C6_content_length_exact (fun _ => [7, 7, 7]) ("200 OK".data) ("text/plain".data)
    (.str ("hello".data)) true (by decide) (by decide)

theorem make_response_default (c : Bytes → Bytes) (s : PStr) :
    make_response c s (.str []) ("text/plain".data) false = plainResponse s := rfl

theorem parse_malformed (raw : PStr)
    (h : (pyWhitespaceSplit
        ((pySplitSeq ("\r\n".data) (headersSectionOf raw)).headD [])).length ≠ 3) :
    parseHTTPRequest raw = ⟨[], [], [], []⟩ := by
  simp only [parseHTTPRequest]
  split
  · rename_i m p v heq
    rw [heq] at h
    simp at h
  · rfl

theorem route_empty (c : Bytes → Bytes) (base : PStr) (fs : FS) :
    handleRequestParsed c base fs ⟨[], [], [], []⟩
      = (plainResponse ("404 Not Found".data), fs) := by
  rw [show handleRequestParsed c base fs ⟨[], [], [], []⟩
      = (make_response c ("404 Not Found".data) (.str []) ("text/plain".data) false, fs)
      from rfl]
  rw [make_response_default]

/-- Claim C1, checked at the failing input (code bug): with base directory
`/tmp/data`, the filename `../datax` resolves to `/tmp/datax`, which is
OUTSIDE the base directory, yet `is_safe_path` accepts it because it uses a
string `startswith` instead of a path-component check; `write_file` then
creates the file at the escaped location and `read_file` reads it back. -/
theorem C1_path_check_bypass :
    is_safe_path ("/tmp/data".data) (pyJoin ("/tmp/data".data) ("../datax".data)) = true
    ∧ abspathA (pyJoin ("/tmp/data".data) ("../datax".data)) = "/tmp/datax".data
    ∧ isPathUnder ("/tmp/data".data) ("/tmp/datax".data) = false
    ∧ write_file ("/tmp/data".data) [] ("../datax".data) [104]
        = (true, [("/tmp/datax".data, [104])])
    ∧ read_file ("/tmp/data".data) [("/tmp/datax".data, [104])] ("../datax".data)
        = (some [104], true) := by decide

/-- Counterexample to claim C2: the raw request `GET /` has a malformed first
line (two tokens), and `handle_request` answers 404 Not Found, not
400 Bad Request: `_parse` swallows its own exception, leaving an empty path
that falls through to the route-table default. -/
theorem C2_malformed_yields_404_not_400 :
    handle_request (fun b => b) ("/tmp/data".data) [] ("GET /".data)
      = (plainResponse ("404 Not Found".data), [])
    ∧ plainResponse ("404 Not Found".data) ≠ plainResponse ("400 Bad Request".data) := by
  constructor
  · decide
  · decide

/-- Claim C2 as amended: for every raw request whose first line does not
split into exactly three whitespace-separated tokens, parsing fails silently
(empty method and path) and `handle_request` returns 404 Not Found, leaving
the filesystem unchanged. -/
theorem C2_malformed_first_line_amended (c : Bytes → Bytes) (base : PStr) (fs : FS)
    (raw : PStr)
    (h : (pyWhitespaceSplit
        ((pySplitSeq ("\r\n".data) (headersSectionOf raw)).headD [])).length ≠ 3) :
    handle_request c base fs raw = (plainResponse ("404 Not Found".data), fs) := by
  rw [handle_request, parse_malformed raw h]
  exact route_empty c base fs

theorem C2_amended_witness :
    handle_request (fun b => b) ("/tmp".data) [] ("BAD\r\nAccept-Encoding: gzip\r\n\r\n".data)
      = (plainResponse ("404 Not Found".data), []) :=
  C2_malformed_first_line_amended (fun b => b) ("/tmp".data) [] _ (by decide)

/-- Counterexample to claim C3: the byte `0xFF` is not valid UTF-8, so
`recv().decode()` raises `UnicodeDecodeError` inside `handle_client`, which
has no `except` clause: no response is written back (the `finally` still
closes the socket) and the exception propagates out of the connection task. -/
theorem C3_invalid_utf8_no_response :
    handle_client (fun b => b) ("/tmp".data) [] [255] = (none, []) := by decide

/-- Claim C3 as amended: for byte streams that decode as UTF-8, a response is
always produced and equals `handle_request`'s output (which is total: parse
failures are swallowed inside `_parse` and dispatch failures are converted
to status responses); for byte streams that are NOT valid UTF-8, the decode
raises before any response is computed and the connection is closed
unanswered. -/
theorem C3_connection_response_amended (c : Bytes → Bytes) (base : PStr) (fs : FS)
    (data : List Nat) :
    (∀ raw, utf8Decode? data = some raw →
      handle_client c base fs data
        = (some (handle_request c base fs raw).1, (handle_request c base fs raw).2))
    ∧ (utf8Decode? data = none → handle_client c base fs data = (none, fs)) := by
  constructor
  · intro raw hr
    simp only [handle_client, hr]
  · intro hn
    simp only [handle_client, hn]

theorem C3_amended_witness :
    handle_client (fun b => b) ("/tmp".data) [] (utf8Encode ("GET / HTTP/1.1\r\n\r\n".data))
      = (some (handle_request (fun b => b) ("/tmp".data) [] ("GET / HTTP/1.1\r\n\r\n".data)).1,
         (handle_request (fun b => b) ("/tmp".data) [] ("GET / HTTP/1.1\r\n\r\n".data)).2) :=
  (C3_connection_response_amended (fun b => b) ("/tmp".data) [] _).1 _ (by decide)

/-- Claim C5: the gzip-acceptance predicate is true exactly when `gzip`
appears as a comma-separated token of the `accept-encoding` header value,
each token trimmed and lower-cased before the exact comparison; an absent
header yields false. -/
theorem C5_accepts_gzip_token (r : HTTPRequest) :
    (accepts_gzip r = true ↔
      ∃ e ∈ pySplitChar ',' ((dictGet r.headers ("accept-encoding".data)).getD []),
        pyLower (pyStrip e) = "gzip".data)
    ∧ (dictGet r.headers ("accept-encoding".data) = none → accepts_gzip r = false) := by
  constructor
  · simp only [accepts_gzip]
    rw [decide_eq_true_eq]
    constructor
    · intro hm
      obtain ⟨e, he, heq⟩ := List.mem_map.mp hm
      exact ⟨e, he, heq⟩
    · rintro ⟨e, he, heq⟩
      exact List.mem_map.mpr ⟨e, he, heq⟩
  · intro hnone
    simp only [accepts_gzip, hnone]
    decide

theorem C5_witness : accepts_gzip C5req = true :=
  (C5_accepts_gzip_token C5req).1.mpr ⟨" GZIP ".data, by decide, by decide⟩

/-- Claim C7: for every filename whose resolved path is contained under the
base directory (the spec's path-containment, which implies the code's
`startswith` check), `write` succeeds and an immediate `read` of the same
name returns exactly the written bytes. -/
theorem C7_write_read_roundtrip (base : PStr) (fs : FS) (n : PStr) (c : Bytes)
    (h : isPathUnder base (abspathA (pyJoin base n)) = true) :
    (write_file base fs n c).1 = true
    ∧ read_file base (write_file base fs n c).2 n = (some c, true) := by
  have hsafe : is_safe_path base (pyJoin base n) = true := by
    rw [is_safe_path]
    rw [isPathUnder] at h
    rcases (Bool.or_eq_true _ _).mp h with h1 | h1
    · have he := eq_of_beq h1
      rw [he]
      have hself := isPrefixOf_append_self base ([] : PStr)
      rw [List.append_nil] at hself
      exact hself
    · obtain ⟨t, ht⟩ := ipo_exists_append _ _ h1
      rw [ht]
      rw [show (base ++ ['/']) ++ t = base ++ ('/' :: t) from by simp]
      exact isPrefixOf_append_self base _
  constructor
  · simp [write_file, hsafe]
  · simp [write_file, read_file, hsafe, fsGet]

theorem C7_witness :
    (write_file ("/tmp/data".data) [] ("a.txt".data) [104, 105]).1 = true
    ∧ read_file ("/tmp/data".data) (write_file ("/tmp/data".data) [] ("a.txt".data)
        [104, 105]).2 ("a.txt".data) = (some [104, 105], true) :=
  C7_write_read_roundtrip ("/tmp/data".data) [] ("a.txt".data) [104, 105] (by decide)

/-- Claim C8: a malformed first line aborts parsing wholesale: method, path,
headers and body are all left at their empty defaults, so the gzip predicate
is false even when the raw text contains an `Accept-Encoding: gzip` line. -/
theorem C8_malformed_parse_aborts (raw : PStr)
    (h : (pyWhitespaceSplit
        ((pySplitSeq ("\r\n".data) (headersSectionOf raw)).headD [])).length ≠ 3) :
    parseHTTPRequest raw = ⟨[], [], [], []⟩
    ∧ accepts_gzip (parseHTTPRequest raw) = false := by
  have hp := parse_malformed raw h
  refine ⟨hp, ?_⟩
  rw [hp]
  decide

theorem C8_witness :
    parseHTTPRequest ("BAD\r\nAccept-Encoding: gzip\r\n\r\nrest".data) = ⟨[], [], [], []⟩
    ∧ accepts_gzip (parseHTTPRequest ("BAD\r\nAccept-Encoding: gzip\r\n\r\nrest".data))
        = false :=
  C8_malformed_parse_aborts _ (by decide)

/-- Counterexample to claim C4: a POST to `/files/a` declares
`Content-Length: 5` but carries a 2-byte body; the slice passes only those 2
bytes to `write` (not exactly 5), the write succeeds, and the stored file has
length 2. -/
theorem C4_short_body_not_exactly_n :
    pyInt? ((dictGet C4req.headers ("content-length".data)).getD ("0".data)) = some 5
    ∧ handle_file_request (fun b => b) ("/tmp/data".data) [] C4req
        = (plainResponse ("201 Created".data), [("/tmp/data/a".data, [104, 105])])
    ∧ (pySlice C4req.body 5).length = 2
    ∧ ¬((pySlice C4req.body 5).length = 5) := by
  refine ⟨by decide, by decide, by decide, by decide⟩

/-- Claim C4 as amended: on POST to `/files/<name>` with nonempty name, a
non-numeric `content-length` yields 400; a declared value of 0 (or an absent
header, which defaults to "0") yields 400; for any other declared value `n`
the Python slice `body[:n]` is passed to `write` - for a nonnegative `n` that
is the FIRST `min(n, len(body))` bytes, at most `n`, not exactly `n` - with
201 on write success and 500 on write failure. -/
theorem C4_post_content_length_amended :
    (∀ (c : Bytes → Bytes) (base : PStr) (fs : FS) (req : HTTPRequest),
      req.path.drop 7 ≠ [] → req.method = "POST".data →
      pyInt? ((dictGet req.headers ("content-length".data)).getD ("0".data)) = none →
      handle_file_request c base fs req = (plainResponse ("400 Bad Request".data), fs))
    ∧ (∀ (c : Bytes → Bytes) (base : PStr) (fs : FS) (req : HTTPRequest),
      req.path.drop 7 ≠ [] → req.method = "POST".data →
      pyInt? ((dictGet req.headers ("content-length".data)).getD ("0".data)) = some 0 →
      handle_file_request c base fs req = (plainResponse ("400 Bad Request".data), fs))
    ∧ (∀ (c : Bytes → Bytes) (base : PStr) (fs : FS) (req : HTTPRequest) (n : Int),
      req.path.drop 7 ≠ [] → req.method = "POST".data →
      pyInt? ((dictGet req.headers ("content-length".data)).getD ("0".data)) = some n →
      n ≠ 0 →
      handle_file_request c base fs req
        = (if (write_file base fs (req.path.drop 7) (pySlice req.body n)).1
           then (plainResponse ("201 Created".data),
                 (write_file base fs (req.path.drop 7) (pySlice req.body n)).2)
           else (plainResponse ("500 Internal Server Error".data), fs)))
    ∧ (∀ (m : Nat) (body : Bytes), pySlice body (Int.ofNat m) = body.take m)
    ∧ (∀ (m : Nat) (body : Bytes), (pySlice body (Int.ofNat m)).length = min m body.length) := by
  refine ⟨?_, ?_, ?_, ?_, ?_⟩
  · intro c base fs req hname hm hint
    simp only [handle_file_request, hint]
    rw [if_neg hname, if_pos hm, make_response_default]
  · intro c base fs req hname hm hint
    simp only [handle_file_request, hint]
    rw [if_neg hname, if_pos hm, if_pos trivial, make_response_default]
  · intro c base fs req n hname hm hint hn0
    simp only [handle_file_request, hint]
    rw [if_neg hname, if_pos hm, if_neg hn0]
    rfl
  · intro m body
    simp [pySlice]
  · intro m body
    simp [pySlice]

theorem C4_amended_witness :
    handle_file_request (fun b => b) ("/tmp/data".data) [] C4wreq =
      (if (write_file ("/tmp/data".data) [] (C4wreq.path.drop 7) (pySlice C4wreq.body 3)).1
       then (plainResponse ("201 Created".data),
             (write_file ("/tmp/data".data) [] (C4wreq.path.drop 7) (pySlice C4wreq.body 3)).2)
       else (plainResponse ("500 Internal Server Error".data), [])) :=
  C4_post_content_length_amended.2.2.1 (fun b => b) ("/tmp/data".data) [] C4wreq 3
    (by decide) (by decide) (by decide) (by decide)

theorem linesJoin_cons2 (a b : List Nat) (rest : List (List Nat)) :
    linesJoin (a :: b :: rest) = a ++ 13 :: 10 :: linesJoin (b :: rest) := rfl

theorem map_headerStrs_shape (s t : PStr) (g : Bool) (len : Nat) :
    ∃ bl rest, (headerStrs s t g len).map utf8Encode
      = utf8Encode (("HTTP/1.1 ".data) ++ s) :: bl :: rest := by
  cases g
  · exact ⟨_, _, rfl⟩
  · exact ⟨_, _, rfl⟩

theorem mk_status_isPre (c : Bytes → Bytes) (s : PStr) (b : PyBody) (t : PStr) (g : Bool) :
    (utf8Encode (("HTTP/1.1 ".data) ++ s)).isPrefixOf (make_response c s b t g) = true := by
  rw [make_response_expand]
  obtain ⟨bl, rest, hshape⟩ := map_headerStrs_shape s t g
    (if g then c (normBody b) else normBody b).length
  rw [hshape, linesJoin_cons2, List.append_assoc]
  exact isPrefixOf_append_self _ _

theorem pfx2_200 (c : Bytes → Bytes) (b : PyBody) (t : PStr) (g : Bool) :
    (utf8Encode ("HTTP/1.1 2".data)).isPrefixOf (make_response c ("200 OK".data) b t g)
      = true :=
  ipo_trans _ _ _ (by decide) (mk_status_isPre c ("200 OK".data) b t g)

theorem pfx2_201 (c : Bytes → Bytes) (b : PyBody) (t : PStr) (g : Bool) :
    (utf8Encode ("HTTP/1.1 2".data)).isPrefixOf (make_response c ("201 Created".data) b t g)
      = true :=
  ipo_trans _ _ _ (by decide) (mk_status_isPre c ("201 Created".data) b t g)

theorem C9files (c : Bytes → Bytes) (base : PStr) (fs : FS) (req : HTTPRequest) :
    (handle_file_request c base fs req).1 = plainResponse ("400 Bad Request".data)
    ∨ (handle_file_request c base fs req).1 = plainResponse ("404 Not Found".data)
    ∨ (handle_file_request c base fs req).1 = plainResponse ("405 Method Not Allowed".data)
    ∨ (handle_file_request c base fs req).1 = plainResponse ("500 Internal Server Error".data)
    ∨ (utf8Encode ("HTTP/1.1 2".data)).isPrefixOf (handle_file_request c base fs req).1
        = true := by
  simp only [handle_file_request]
  split
  · left; exact make_response_default c _
  · split
    · split
      · left; exact make_response_default c _
      · split
        · left; exact make_response_default c _
        · split
          · right; right; right; right; exact pfx2_201 c _ _ _
          · right; right; right; left; exact make_response_default c _
    · split
      · split
        · right; right; right; right; exact pfx2_200 c _ _ _
        · right; left; exact make_response_default c _
      · right; right; left; exact make_response_default c _

theorem C9route (c : Bytes → Bytes) (base : PStr) (fs : FS) (req : HTTPRequest) :
    (handleRequestParsed c base fs req).1 = plainResponse ("400 Bad Request".data)
    ∨ (handleRequestParsed c base fs req).1 = plainResponse ("404 Not Found".data)
    ∨ (handleRequestParsed c base fs req).1 = plainResponse ("405 Method Not Allowed".data)
    ∨ (handleRequestParsed c base fs req).1 = plainResponse ("500 Internal Server Error".data)
    ∨ (utf8Encode ("HTTP/1.1 2".data)).isPrefixOf (handleRequestParsed c base fs req).1
        = true := by
  simp only [handleRequestParsed]
  split
  · exact C9files c base fs req
  · split
    · right; right; right; right; exact pfx2_200 c _ _ _
    · split
      · right; right; right; right; exact pfx2_200 c _ _ _
      · split
        · right; right; right; right; exact pfx2_200 c _ _ _
        · right; left; exact make_response_default c _

/-- Claim C9: every response of the server is either one of the four exact
error responses - which carry `Content-Type: text/plain`, `Content-Length: 0`,
an empty body and NO `Content-Encoding` header, regardless of the client's
`Accept-Encoding` - or a success response whose status line starts with
`HTTP/1.1 2`. The four conjuncts spell out the exact error bytes. -/
theorem C9_error_responses_plain (c : Bytes → Bytes) (base : PStr) (fs : FS) (raw : PStr) :
    ((handle_request c base fs raw).1 = plainResponse ("400 Bad Request".data)
      ∨ (handle_request c base fs raw).1 = plainResponse ("404 Not Found".data)
      ∨ (handle_request c base fs raw).1 = plainResponse ("405 Method Not Allowed".data)
      ∨ (handle_request c base fs raw).1 = plainResponse ("500 Internal Server Error".data)
      ∨ (utf8Encode ("HTTP/1.1 2".data)).isPrefixOf (handle_request c base fs raw).1 = true)
    ∧ plainResponse ("400 Bad Request".data) = utf8Encode
        ("HTTP/1.1 400 Bad Request\r\nContent-Type: text/plain\r\nContent-Length: 0\r\n\r\n".data)
    ∧ plainResponse ("404 Not Found".data) = utf8Encode
        ("HTTP/1.1 404 Not Found\r\nContent-Type: text/plain\r\nContent-Length: 0\r\n\r\n".data)
    ∧ plainResponse ("405 Method Not Allowed".data) = utf8Encode
        ("HTTP/1.1 405 Method Not Allowed\r\nContent-Type: text/plain\r\nContent-Length: 0\r\n\r\n".data)
    ∧ plainResponse ("500 Internal Server Error".data) = utf8Encode
        ("HTTP/1.1 500 Internal Server Error\r\nContent-Type: text/plain\r\nContent-Length: 0\r\n\r\n".data)
    := by
  refine ⟨?_, by decide, by decide, by decide, by decide⟩
  exact C9route c base fs (parseHTTPRequest raw)

theorem ipo_false_second (a b : Char) (hab : a ≠ b) (c0 : Char) (xs ys : PStr) :
    List.isPrefixOf (c0 :: a :: xs) (c0 :: b :: ys) = false := by
  rw [ipo_cons, ipo_cons]
  have h1 : (a == b) = false := by
    rw [beq_eq_false_iff_ne]
    exact hab
  rw [h1]
  simp

theorem echo_branch (c : Bytes → Bytes) (base : PStr) (fs : FS) (req : HTTPRequest)
    (t : PStr) (ht : req.path = "/echo/".data ++ t) :
    handleRequestParsed c base fs req
      = (make_response c ("200 OK".data) (.str (req.path.drop 6)) ("text/plain".data)
          (accepts_gzip req), fs) := by
  have hfiles : (("/files/".data).isPrefixOf req.path) = false := by
    rw [ht]
    exact ipo_false_second 'f' 'e' (by decide) '/' ("iles/".data) ("cho/".data ++ t)
  have hecho : (("/echo/".data).isPrefixOf req.path) = true := by
    rw [ht]
    exact isPrefixOf_append_self _ _
  simp only [handleRequestParsed]
  rw [if_neg (ne_true_of_eq_false hfiles), if_pos hecho]

/-- Claim C10: every request whose path starts with `/echo/` gets a 200
response whose body argument is exactly the path suffix after `/echo/` (gzip
negotiated); in particular the path `/echo/` alone yields 200 with an empty
body (an empty transmitted body when gzip is not accepted), in contrast with
`/files/` where the empty name yields 400 before the method is examined. -/
theorem C10_echo_empty_vs_files :
    (∀ (c : Bytes → Bytes) (base : PStr) (fs : FS) (req : HTTPRequest),
      (("/echo/".data).isPrefixOf req.path) = true →
      handleRequestParsed c base fs req
        = (make_response c ("200 OK".data) (.str (req.path.drop 6)) ("text/plain".data)
            (accepts_gzip req), fs))
    ∧ (∀ (c : Bytes → Bytes) (base : PStr) (fs : FS) (req : HTTPRequest),
      req.path = "/echo/".data → accepts_gzip req = false →
      (handleRequestParsed c base fs req).1 = utf8Encode
        ("HTTP/1.1 200 OK\r\nContent-Type: text/plain\r\nContent-Length: 0\r\n\r\n".data))
    ∧ (∀ (c : Bytes → Bytes) (base : PStr) (fs : FS) (req : HTTPRequest),
      req.path = "/files/".data →
      handleRequestParsed c base fs req = (plainResponse ("400 Bad Request".data), fs)) := by
  refine ⟨?_, ?_, ?_⟩
  · intro c base fs req hp
    obtain ⟨t, ht⟩ := ipo_exists_append _ _ hp
    exact echo_branch c base fs req t ht
  · intro c base fs req hpath hgz
    have hb := echo_branch c base fs req [] (by rw [hpath]; simp)
    rw [hb]
    rw [show (make_response c ("200 OK".data) (.str (req.path.drop 6)) ("text/plain".data)
        (accepts_gzip req), fs).1
      = make_response c ("200 OK".data) (.str (req.path.drop 6)) ("text/plain".data)
        (accepts_gzip req) from rfl]
    rw [hpath, hgz]
    rw [show ("/echo/".data).drop 6 = ([] : PStr) from by decide]
    rw [make_response_default]
    decide
  · intro c base fs req hpath
    have hfiles : (("/files/".data).isPrefixOf req.path) = true := by
      rw [hpath]; decide
    simp only [handleRequestParsed]
    rw [if_pos hfiles]
    simp only [handle_file_request]
    rw [hpath]
    rw [if_pos (show ("/files/".data).drop 7 = ([] : PStr) from by decide)]
    rw [make_response_default]

theorem C10_witness :
    handleRequestParsed (fun b => b) ("/tmp".data) [] C10req
      = (make_response (fun b => b) ("200 OK".data) (.str (C10req.path.drop 6))
          ("text/plain".data) (accepts_gzip C10req), []) :=
  C10_echo_empty_vs_files.1 (fun b => b) ("/tmp".data) [] C10req (by decide)
